import Mathlib

/-!
Verification of the Python AST codec in `priv/parsers/python/parser.py` and
`priv/parsers/python/unparser.py`.

The two scripts form a serialization adapter over Python's `ast` module (the
"oracle"): `parser.py` turns source text into a JSON document describing the
AST, `unparser.py` turns such a document back into source text.  We embed the
adapter's logic shallowly:

* `Json` models the JSON documents read and written on the wire.
* `PyVal` models the Python runtime values the adapter manipulates: the
  primitives that appear as AST field values (`None`, bools, ints, strings),
  Python lists, plain dicts (which arise from `json.loads` pass-through), and
  `ast.AST` nodes.  A node carries its class name, its four optional position
  attributes (`hasattr`-style: present or absent), and its `_fields` as an
  ordered association list (`ast.iter_fields` order).
* The oracle (`ast.parse`, `ast.unparse`, and which names `getattr(ast, ·)`
  resolves) is an injected dependency, the `Oracle` structure, as the spec's
  design notes prescribe.
-/

/-- JSON-like Python values: the documents `json.loads` yields, and the
trees the encoder hands to `json.dumps`.  Objects are insertion-ordered
association lists, matching Python dicts.  The last three constructors are
Python values `json.loads` never produces but `ast_to_dict` passes through
from AST constants (parser.py line 50 returns the value verbatim): `bytes`,
`complex` and `Ellipsis` — the types on which `json.dumps` raises
`TypeError`. -/
inductive Json where
  | null
  | bool (b : Bool)
  | int (n : Int)
  | str (s : String)
  | arr (elems : List Json)
  | obj (entries : List (String × Json))
  | bytes (bs : List Nat)
  | complex
  | ellipsisVal

/-- Python runtime values handled by the adapter, including the `Constant`
value kinds `ast.parse` produces that are not JSON-serializable: `bytes`
(its byte values), `complex` and `Ellipsis`.  The numeric payload of a
complex literal is irrelevant to every adapter path (pure pass-through; only
its type is ever observed, by `json.dumps`), so it is not carried.  `float`
constants are JSON-serializable and behave exactly like `int` on every
adapter path; IEEE floats themselves are not modelled. -/
inductive PyVal where
  | none
  | bool (b : Bool)
  | int (n : Int)
  | str (s : String)
  | list (elems : List PyVal)
  | dict (entries : List (String × PyVal))
  | node (className : String)
      (lineno col_offset end_lineno end_col_offset : Option Int)
      (fields : List (String × PyVal))
  | bytes (bs : List Nat)
  | complex
  | ellipsisVal

/-- A raised Python exception, reduced to what the adapter inspects:
`type(e).__name__` and `str(e)`. -/
structure PyError where
  type_ : String
  msg : String
deriving DecidableEq

/-- The list of position keys skipped by `dict_to_ast`
(`['lineno', 'col_offset', 'end_lineno', 'end_col_offset']`). -/
def posNames : List String := ["lineno", "col_offset", "end_lineno", "end_col_offset"]

/-- `result['lineno'] = node.lineno` guarded by `hasattr(node, 'lineno')`:
one entry when the attribute is present, none when absent. -/
def optPos (key : String) : Option Int → List (String × Json)
  | Option.some n => [(key, Json.int n)]
  | Option.none => []

mutual
/-- `ast_to_dict` from parser.py: convert a Python AST node (or primitive
value) to a JSON-serializable value.  An `ast.AST` node becomes a dict with
`_type`, the four position attributes when present, then every field from
`ast.iter_fields`; lists map recursively; primitives pass through.  (A plain
dict is returned verbatim by the code's primitive branch and is then
serialized structurally by `json.dumps`; AST trees never contain dicts.) -/
def ast_to_dict : PyVal → Json
  | PyVal.node t l c el ec fields =>
      Json.obj (("_type", Json.str t) ::
        (optPos "lineno" l ++ optPos "col_offset" c ++
         optPos "end_lineno" el ++ optPos "end_col_offset" ec ++
         astFieldsToDict fields))
  | PyVal.list xs => Json.arr (astListToDict xs)
  | PyVal.dict kvs => Json.obj (astFieldsToDict kvs)
  | PyVal.none => Json.null
  | PyVal.bool b => Json.bool b
  | PyVal.int n => Json.int n
  | PyVal.str s => Json.str s
  | PyVal.bytes bs => Json.bytes bs
  | PyVal.complex => Json.complex
  | PyVal.ellipsisVal => Json.ellipsisVal

/-- `[ast_to_dict(x) for x in value]`. -/
def astListToDict : List PyVal → List Json
  | [] => []
  | x :: xs => ast_to_dict x :: astListToDict xs

/-- `for field, value in ast.iter_fields(node): result[field] = ...`. -/
def astFieldsToDict : List (String × PyVal) → List (String × Json)
  | [] => []
  | (k, v) :: rest => (k, ast_to_dict v) :: astFieldsToDict rest
end

/-- Outcome of the oracle's `ast.parse`: a tree, a `SyntaxError` (with the
attributes `parse_source` reads off it, each possibly `None`), or some other
raised exception. -/
inductive ParseOutcome where
  | parsed (tree : PyVal)
  | synErr (msg : String) (lineno offset : Option Int) (text : Option String)
  | otherErr (type_ msg : String)

/-- The injected oracle: which attribute names `getattr(ast, ·)` resolves to
node classes, `ast.parse`, and `ast.unparse` (which may raise). -/
structure Oracle where
  astClasses : List String
  parse : String → ParseOutcome
  unparse : PyVal → Except PyError String

/-- `None`-able integer attribute as serialized by `json.dumps`. -/
def optIntJson : Option Int → Json
  | Option.some n => Json.int n
  | Option.none => Json.null

/-- `None`-able string attribute as serialized by `json.dumps`. -/
def optStrJson : Option String → Json
  | Option.some s => Json.str s
  | Option.none => Json.null

/-- `parse_source` from parser.py: parse Python source to the result
envelope, catching `SyntaxError` specially and any other exception
generically. -/
def parse_source (O : Oracle) (source : String) : Json :=
  match O.parse source with
  | ParseOutcome.parsed tree =>
      Json.obj [("ok", Json.bool true), ("ast", ast_to_dict tree)]
  | ParseOutcome.synErr msg lineno offset text =>
      Json.obj [("ok", Json.bool false),
        ("error", Json.obj [("type", Json.str "SyntaxError"),
          ("msg", Json.str msg),
          ("lineno", optIntJson lineno),
          ("offset", optIntJson offset),
          ("text", optStrJson text)])]
  | ParseOutcome.otherErr t m =>
      Json.obj [("ok", Json.bool false),
        ("error", Json.obj [("type", Json.str t), ("msg", Json.str m)])]

mutual
/-- The Python value `json.loads` denotes by a given JSON document: JSON
objects are plain dicts, arrays are lists, scalars are themselves.  This is
how a passed-through document fragment lives inside a reconstructed tree. -/
def jsonToVal : Json → PyVal
  | Json.null => PyVal.none
  | Json.bool b => PyVal.bool b
  | Json.int n => PyVal.int n
  | Json.str s => PyVal.str s
  | Json.arr xs => PyVal.list (jsonListToVal xs)
  | Json.obj kvs => PyVal.dict (jsonEntriesToVal kvs)
  | Json.bytes bs => PyVal.bytes bs
  | Json.complex => PyVal.complex
  | Json.ellipsisVal => PyVal.ellipsisVal

def jsonListToVal : List Json → List PyVal
  | [] => []
  | x :: xs => jsonToVal x :: jsonListToVal xs

def jsonEntriesToVal : List (String × Json) → List (String × PyVal)
  | [] => []
  | (k, v) :: rest => (k, jsonToVal v) :: jsonEntriesToVal rest
end

/-- `key.startswith('_')`: for the one-character pattern the code uses this
is exactly "the first character is an underscore". -/
def startsUnderscore : String → Bool
  | ⟨[]⟩ => false
  | ⟨c :: _⟩ => c == '_'

mutual
/-- `dict_to_ast` from unparser.py: convert a JSON value back to a Python AST
node.  A dict containing `_type` resolves the class via `getattr(ast, ·)`
(raising `ValueError` for an unknown name, and `TypeError` — as `getattr`
does — when `_type` is not a string), then builds the node from the remaining
fields, skipping keys that start with `_` and the four position keys.  Lists
map recursively; anything else (including a dict without `_type`) is returned
verbatim. -/
def dict_to_ast (astClasses : List String) : Json → Except PyError PyVal
  | Json.obj kvs =>
      match kvs.lookup "_type" with
      | Option.some (Json.str t) =>
          if astClasses.contains t then
            match dictFieldsToAst astClasses kvs with
            | Except.ok fields =>
                Except.ok (PyVal.node t Option.none Option.none Option.none Option.none fields)
            | Except.error e => Except.error e
          else
            Except.error ⟨"ValueError", "Unknown AST node type: " ++ t⟩
      | Option.some _ =>
          Except.error ⟨"TypeError", "attribute name must be string"⟩
      | Option.none => Except.ok (jsonToVal (Json.obj kvs))
  | Json.arr xs =>
      match dictListToAst astClasses xs with
      | Except.ok vs => Except.ok (PyVal.list vs)
      | Except.error e => Except.error e
  | Json.null => Except.ok PyVal.none
  | Json.bool b => Except.ok (PyVal.bool b)
  | Json.int n => Except.ok (PyVal.int n)
  | Json.str s => Except.ok (PyVal.str s)
  | Json.bytes bs => Except.ok (PyVal.bytes bs)
  | Json.complex => Except.ok PyVal.complex
  | Json.ellipsisVal => Except.ok PyVal.ellipsisVal

/-- `[dict_to_ast(item) for item in value]`, first raised error wins. -/
def dictListToAst (astClasses : List String) : List Json → Except PyError (List PyVal)
  | [] => Except.ok []
  | x :: xs =>
      match dict_to_ast astClasses x with
      | Except.ok v =>
          match dictListToAst astClasses xs with
          | Except.ok vs => Except.ok (v :: vs)
          | Except.error e => Except.error e
      | Except.error e => Except.error e

/-- The `for key, value in data.items()` loop of `dict_to_ast`: skip keys
starting with `_` and the four position keys, recursively decode the rest. -/
def dictFieldsToAst (astClasses : List String) : List (String × Json) → Except PyError (List (String × PyVal))
  | [] => Except.ok []
  | (k, v) :: rest =>
      if startsUnderscore k || posNames.contains k then
        dictFieldsToAst astClasses rest
      else
        match dict_to_ast astClasses v with
        | Except.ok v2 =>
            match dictFieldsToAst astClasses rest with
            | Except.ok fields => Except.ok ((k, v2) :: fields)
            | Except.error e => Except.error e
        | Except.error e => Except.error e
end

/-- `unparse_ast` from unparser.py: rebuild the tree and call `ast.unparse`
(the Python 3.9+ branch guarded by `hasattr(ast, 'unparse')`; the astor /
`compile` fallbacks are for interpreters without it and are out of scope).
Every exception `e` raised inside — by `dict_to_ast` or by the oracle — is
re-raised as `ValueError(f"Failed to unparse AST: \x7be\x7d")`. -/
def unparse_ast (O : Oracle) (ast_dict : Json) : Except PyError String :=
  match dict_to_ast O.astClasses ast_dict with
  | Except.ok tree =>
      match O.unparse tree with
      | Except.ok source => Except.ok source
      | Except.error e => Except.error ⟨"ValueError", "Failed to unparse AST: " ++ e.msg⟩
  | Except.error e => Except.error ⟨"ValueError", "Failed to unparse AST: " ++ e.msg⟩

/-- The failure envelope `{'ok': False, 'error': {'type': ..., 'msg': ...}}`. -/
def errorEnvelope (type_ msg : String) : Json :=
  Json.obj [("ok", Json.bool false),
    ("error", Json.obj [("type", Json.str type_), ("msg", Json.str msg)])]

/-- The envelope emitted for a document that is not a dict with `_type`. -/
def invalidFormatEnvelope : Json :=
  errorEnvelope "ValueError" "Invalid AST format"

/-- `main` from unparser.py, from parsed input document to emitted envelope:
reject anything that is not a dict containing `_type`, otherwise run
`unparse_ast` and wrap its outcome, reporting `type(e).__name__` / `str(e)`
for a raised exception. -/
def unparserMain (O : Oracle) (data : Json) : Json :=
  match data with
  | Json.obj kvs =>
      match kvs.lookup "_type" with
      | Option.some _ =>
          match unparse_ast O (Json.obj kvs) with
          | Except.ok source =>
              Json.obj [("ok", Json.bool true), ("source", Json.str source)]
          | Except.error e => errorEnvelope e.type_ e.msg
      | Option.none => invalidFormatEnvelope
  | _ => invalidFormatEnvelope

/-- Decimal digit character. -/
def digitCh (d : Nat) : Char :=
  if d = 0 then '0' else if d = 1 then '1' else if d = 2 then '2'
  else if d = 3 then '3' else if d = 4 then '4' else if d = 5 then '5'
  else if d = 6 then '6' else if d = 7 then '7' else if d = 8 then '8'
  else '9'

/-- Lowercase hexadecimal digit character, used for `\uXXXX` escapes. -/
def hexCh (d : Nat) : Char :=
  if d = 10 then 'a' else if d = 11 then 'b' else if d = 12 then 'c'
  else if d = 13 then 'd' else if d = 14 then 'e' else if d = 15 then 'f'
  else digitCh d

/-- Decimal digits of a natural number, most significant first. -/
def natDigits (n : Nat) : List Char :=
  if n < 10 then [digitCh n]
  else natDigits (n / 10) ++ [digitCh (n % 10)]
decreasing_by exact Nat.div_lt_self (by omega) (by omega)

/-- Decimal rendering of an integer, as `json.dumps` prints `int`s. -/
def intRepr (n : Int) : String :=
  if n < 0 then "-" ++ String.mk (natDigits n.natAbs)
  else String.mk (natDigits n.toNat)

/-- `json.dumps` escaping of one character inside a string literal: the named
escapes for quote, backslash and common control characters, `\u00XX` for the
remaining control characters, everything else verbatim.  (With the default
`ensure_ascii=True` the real encoder also escapes non-ASCII characters as
`\uXXXX`; that detail is irrelevant to every property below, which only
inspects line structure, and is not modelled.) -/
def escCh (c : Char) : String :=
  if c = '"' then "\\\""
  else if c = '\\' then "\\\\"
  else if c = '\n' then "\\n"
  else if c = '\r' then "\\r"
  else if c = '\t' then "\\t"
  else if c.toNat < 32 then
    String.mk ['\\', 'u', '0', '0', hexCh (c.toNat / 16), hexCh (c.toNat % 16)]
  else String.mk [c]

/-- Escape each character of a string body in sequence. -/
def strEsc : List Char → String
  | [] => ""
  | c :: cs => escCh c ++ strEsc cs

/-- A JSON string literal: quote, escaped characters, quote. -/
def serStr (s : String) : String :=
  "\"" ++ strEsc s.data ++ "\""

mutual
/-- The rendering half of `json.dumps`, with its default separators `', '`
and `': '`.  On the non-serializable leaves the value returned here is never
consulted: `dumps` below raises before rendering such a tree. -/
def serJson : Json → String
  | Json.null => "null"
  | Json.bool true => "true"
  | Json.bool false => "false"
  | Json.int n => intRepr n
  | Json.str s => serStr s
  | Json.arr xs => "[" ++ serElems xs ++ "]"
  | Json.obj kvs => "\x7b" ++ serEntries kvs ++ "\x7d"
  | Json.bytes _ => ""
  | Json.complex => ""
  | Json.ellipsisVal => ""

def serElems : List Json → String
  | [] => ""
  | [x] => serJson x
  | x :: y :: rest => serJson x ++ ", " ++ serElems (y :: rest)

def serEntries : List (String × Json) → String
  | [] => ""
  | [(k, v)] => serStr k ++ ": " ++ serJson v
  | (k, v) :: e :: rest => serStr k ++ ": " ++ serJson v ++ ", " ++ serEntries (e :: rest)
end

mutual
/-- The Python type name of the leftmost value in the tree that `json.dumps`
cannot serialize, if any. -/
def firstUnserializable : Json → Option String
  | Json.bytes _ => Option.some "bytes"
  | Json.complex => Option.some "complex"
  | Json.ellipsisVal => Option.some "ellipsis"
  | Json.arr xs => firstUnserializableList xs
  | Json.obj kvs => firstUnserializableEntries kvs
  | _ => Option.none

def firstUnserializableList : List Json → Option String
  | [] => Option.none
  | x :: xs =>
      match firstUnserializable x with
      | Option.some tn => Option.some tn
      | Option.none => firstUnserializableList xs

def firstUnserializableEntries : List (String × Json) → Option String
  | [] => Option.none
  | (_, v) :: rest =>
      match firstUnserializable v with
      | Option.some tn => Option.some tn
      | Option.none => firstUnserializableEntries rest
end

/-- `json.dumps`: renders the document, or raises `TypeError` at the first
value of a type the encoder does not handle (bytes, complex, Ellipsis). -/
def dumps (j : Json) : Except PyError String :=
  match firstUnserializable j with
  | Option.some tn =>
      Except.error ⟨"TypeError", "Object of type " ++ tn ++ " is not JSON serializable"⟩
  | Option.none => Except.ok (serJson j)

/-- `main` from parser.py, from the text read off stdin to the bytes written
to stdout: `print(json.dumps(result))`.  `json.dumps` runs outside
`parse_source`'s try/except, so if it raises, the exception is uncaught —
the interpreter dies with a traceback and nothing reaches stdout — modelled
by the `Except.error` branch.  On success stdout receives the serialized
envelope followed by `print`'s newline. -/
def parserMainOutput (O : Oracle) (source : String) : Except PyError String :=
  match dumps (parse_source O source) with
  | Except.ok s => Except.ok (s ++ "\n")
  | Except.error e => Except.error e

/-- The string contains no newline character. -/
def newlineFree (s : String) : Bool :=
  s.data.all (fun c => !(c == '\n'))

/-- Number of newline characters in a string: `n` newlines means the output
stream holds exactly `n` (terminated) lines. -/
def newlineCount (s : String) : Nat :=
  (s.data.filter (fun c => c == '\n')).length

/-- A JSON value is a result envelope: an object whose `ok` field is `true`,
or `false` alongside an `error` object. -/
def isEnvelope : Json → Bool
  | Json.obj kvs =>
      match kvs.lookup "ok" with
      | Option.some (Json.bool true) => true
      | Option.some (Json.bool false) =>
          match kvs.lookup "error" with
          | Option.some (Json.obj _) => true
          | _ => false
      | _ => false
  | _ => false

mutual
/-- A well-formed native AST tree as `ast.parse` produces it: every node's
class name is resolvable through the oracle, no field name starts with `_` or
collides with the four position attribute names (true of every field of every
`ast` node class), and no plain dict occurs as a field value. -/
def wfTree (astClasses : List String) : PyVal → Bool
  | PyVal.node t _ _ _ _ fields => astClasses.contains t && wfFields astClasses fields
  | PyVal.list xs => wfList astClasses xs
  | PyVal.dict _ => false
  | _ => true

def wfList (astClasses : List String) : List PyVal → Bool
  | [] => true
  | x :: xs => wfTree astClasses x && wfList astClasses xs

def wfFields (astClasses : List String) : List (String × PyVal) → Bool
  | [] => true
  | (k, v) :: rest =>
      !(startsUnderscore k || posNames.contains k) &&
        wfTree astClasses v && wfFields astClasses rest
end

mutual
/-- Erase the four position attributes from every node of a tree, leaving
shape and field values intact. -/
def stripPos : PyVal → PyVal
  | PyVal.node t _ _ _ _ fields =>
      PyVal.node t Option.none Option.none Option.none Option.none (stripPosFields fields)
  | PyVal.list xs => PyVal.list (stripPosList xs)
  | PyVal.dict kvs => PyVal.dict (stripPosFields kvs)
  | PyVal.none => PyVal.none
  | PyVal.bool b => PyVal.bool b
  | PyVal.int n => PyVal.int n
  | PyVal.str s => PyVal.str s
  | PyVal.bytes bs => PyVal.bytes bs
  | PyVal.complex => PyVal.complex
  | PyVal.ellipsisVal => PyVal.ellipsisVal

def stripPosList : List PyVal → List PyVal
  | [] => []
  | x :: xs => stripPos x :: stripPosList xs

def stripPosFields : List (String × PyVal) → List (String × PyVal)
  | [] => []
  | (k, v) :: rest => (k, stripPos v) :: stripPosFields rest
end

mutual
/-- The value contains no `ast.AST` node anywhere: it is plain
`json.loads`-style data. -/
def nodeFree : PyVal → Bool
  | PyVal.node _ _ _ _ _ _ => false
  | PyVal.list xs => nodeFreeList xs
  | PyVal.dict kvs => nodeFreeFields kvs
  | _ => true

def nodeFreeList : List PyVal → Bool
  | [] => true
  | x :: xs => nodeFree x && nodeFreeList xs

def nodeFreeFields : List (String × PyVal) → Bool
  | [] => true
  | (_, v) :: rest => nodeFree v && nodeFreeFields rest
end

/-- Structural induction for `PyVal` with member hypotheses for the nested
lists. -/
theorem pyValInduction (motive : PyVal → Prop)
    (hnone : motive PyVal.none)
    (hbool : ∀ b, motive (PyVal.bool b))
    (hint : ∀ n, motive (PyVal.int n))
    (hstr : ∀ s, motive (PyVal.str s))
    (hlist : ∀ xs, (∀ x ∈ xs, motive x) → motive (PyVal.list xs))
    (hdict : ∀ kvs, (∀ p ∈ kvs, motive p.2) → motive (PyVal.dict kvs))
    (hnode : ∀ t l c el ec fs, (∀ p ∈ fs, motive p.2) →
      motive (PyVal.node t l c el ec fs))
    (hbytes : ∀ bs, motive (PyVal.bytes bs))
    (hcomplex : motive PyVal.complex)
    (hellipsis : motive PyVal.ellipsisVal) :
    ∀ v, motive v
  | PyVal.none => hnone
  | PyVal.bool b => hbool b
  | PyVal.int n => hint n
  | PyVal.str s => hstr s
  | PyVal.list xs => hlist xs (fun x hx =>
      pyValInduction motive hnone hbool hint hstr hlist hdict hnode hbytes hcomplex hellipsis x)
  | PyVal.dict kvs => hdict kvs (fun p hp =>
      pyValInduction motive hnone hbool hint hstr hlist hdict hnode hbytes hcomplex hellipsis p.2)
  | PyVal.node t l c el ec fs => hnode t l c el ec fs (fun p hp =>
      pyValInduction motive hnone hbool hint hstr hlist hdict hnode hbytes hcomplex hellipsis p.2)
  | PyVal.bytes bs => hbytes bs
  | PyVal.complex => hcomplex
  | PyVal.ellipsisVal => hellipsis
termination_by v => sizeOf v
decreasing_by
  · have h1 := List.sizeOf_lt_of_mem hx
    simp only [PyVal.list.sizeOf_spec]
    omega
  · have h1 := List.sizeOf_lt_of_mem hp
    obtain ⟨a, b⟩ := p
    simp only [Prod.mk.sizeOf_spec] at h1
    simp only [PyVal.dict.sizeOf_spec]
    omega
  · have h1 := List.sizeOf_lt_of_mem hp
    obtain ⟨a, b⟩ := p
    simp only [Prod.mk.sizeOf_spec] at h1
    simp only [PyVal.node.sizeOf_spec]
    omega

/-- Structural induction for `Json` with member hypotheses for the nested
lists. -/
theorem jsonInduction (motive : Json → Prop)
    (hnull : motive Json.null)
    (hbool : ∀ b, motive (Json.bool b))
    (hint : ∀ n, motive (Json.int n))
    (hstr : ∀ s, motive (Json.str s))
    (harr : ∀ xs, (∀ x ∈ xs, motive x) → motive (Json.arr xs))
    (hobj : ∀ kvs, (∀ p ∈ kvs, motive p.2) → motive (Json.obj kvs))
    (hbytes : ∀ bs, motive (Json.bytes bs))
    (hcomplex : motive Json.complex)
    (hellipsis : motive Json.ellipsisVal) :
    ∀ j, motive j
  | Json.null => hnull
  | Json.bool b => hbool b
  | Json.int n => hint n
  | Json.str s => hstr s
  | Json.arr xs => harr xs (fun x hx =>
      jsonInduction motive hnull hbool hint hstr harr hobj hbytes hcomplex hellipsis x)
  | Json.obj kvs => hobj kvs (fun p hp =>
      jsonInduction motive hnull hbool hint hstr harr hobj hbytes hcomplex hellipsis p.2)
  | Json.bytes bs => hbytes bs
  | Json.complex => hcomplex
  | Json.ellipsisVal => hellipsis
termination_by j => sizeOf j
decreasing_by
  · have h1 := List.sizeOf_lt_of_mem hx
    simp only [Json.arr.sizeOf_spec]
    omega
  · have h1 := List.sizeOf_lt_of_mem hp
    obtain ⟨a, b⟩ := p
    simp only [Prod.mk.sizeOf_spec] at h1
    simp only [Json.obj.sizeOf_spec]
    omega

/-! ### Supporting lemmas -/

theorem lookup_append {β : Type} (k : String) (l1 l2 : List (String × β)) :
    (l1 ++ l2).lookup k =
      match l1.lookup k with
      | Option.some v => Option.some v
      | Option.none => l2.lookup k := by
  induction l1 with
  | nil => simp [List.lookup]
  | cons a rest ih =>
      obtain ⟨a1, a2⟩ := a
      simp only [List.cons_append, List.lookup]
      cases h : (k == a1) <;> simp [ih]

theorem optPos_key {key : String} {o : Option Int} {p : String × Json}
    (h : p ∈ optPos key o) : p.1 = key := by
  cases o <;> simp [optPos] at h
  rw [h]

/-- Entries whose key starts with `_` or is a position key are dropped by the
decoder's field loop. -/
theorem dictFieldsToAst_skip (cs : List String) (pre rest : List (String × Json))
    (h : ∀ p ∈ pre, (startsUnderscore p.1 || posNames.contains p.1) = true) :
    dictFieldsToAst cs (pre ++ rest) = dictFieldsToAst cs rest := by
  induction pre with
  | nil => simp
  | cons a pre ih =>
      obtain ⟨k, v⟩ := a
      have hk := h (k, v) (by simp)
      simp only [List.cons_append]
      rw [dictFieldsToAst]
      simp only at hk
      rw [hk]
      simp only [if_true]
      exact ih (fun p hp => h p (by simp [hp]))

theorem dictListToAst_astListToDict (cs : List String) (xs : List PyVal)
    (ih : ∀ x ∈ xs, wfTree cs x = true → dict_to_ast cs (ast_to_dict x) = Except.ok (stripPos x))
    (h : wfList cs xs = true) :
    dictListToAst cs (astListToDict xs) = Except.ok (stripPosList xs) := by
  induction xs with
  | nil => simp [astListToDict, dictListToAst, stripPosList]
  | cons x xs ihl =>
      rw [wfList] at h
      simp only [Bool.and_eq_true] at h
      rw [astListToDict, dictListToAst, stripPosList]
      rw [ih x (by simp) h.1]
      rw [ihl (fun y hy hwf => ih y (by simp [hy]) hwf) h.2]

theorem dictFieldsToAst_astFieldsToDict (cs : List String) (fs : List (String × PyVal))
    (ih : ∀ p ∈ fs, wfTree cs p.2 = true → dict_to_ast cs (ast_to_dict p.2) = Except.ok (stripPos p.2))
    (h : wfFields cs fs = true) :
    dictFieldsToAst cs (astFieldsToDict fs) = Except.ok (stripPosFields fs) := by
  induction fs with
  | nil => simp [astFieldsToDict, dictFieldsToAst, stripPosFields]
  | cons p fs ihl =>
      obtain ⟨k, v⟩ := p
      rw [wfFields] at h
      simp only [Bool.and_eq_true, Bool.not_eq_true'] at h
      rw [astFieldsToDict, dictFieldsToAst, stripPosFields]
      rw [h.1.1]
      simp only [Bool.false_eq_true, if_false]
      rw [ih (k, v) (by simp) h.1.2]
      rw [ihl (fun q hq hwf => ih q (by simp [hq]) hwf) h.2]

theorem startsUnderscore_type : startsUnderscore "_type" = true := by decide

/-- C1.  Codec round-trip at the tree level: decoding the encoding of any
well-formed native AST value reconstructs a value of the same shape with the
same field values, with only the four position attributes gone. -/
theorem dict_to_ast_ast_to_dict_roundtrip (cs : List String) (v : PyVal)
    (h : wfTree cs v = true) :
    dict_to_ast cs (ast_to_dict v) = Except.ok (stripPos v) := by
  induction v using pyValInduction with
  | hnone => simp [ast_to_dict, dict_to_ast, stripPos]
  | hbool b => simp [ast_to_dict, dict_to_ast, stripPos]
  | hint n => simp [ast_to_dict, dict_to_ast, stripPos]
  | hstr s => simp [ast_to_dict, dict_to_ast, stripPos]
  | hbytes bs => simp [ast_to_dict, dict_to_ast, stripPos]
  | hcomplex => simp [ast_to_dict, dict_to_ast, stripPos]
  | hellipsis => simp [ast_to_dict, dict_to_ast, stripPos]
  | hlist xs ih =>
      rw [wfTree] at h
      rw [ast_to_dict, stripPos, dict_to_ast]
      rw [dictListToAst_astListToDict cs xs ih h]
  | hdict kvs ih =>
      rw [wfTree] at h
      exact absurd h (by simp)
  | hnode t l c el ec fs ih =>
      rw [wfTree] at h
      simp only [Bool.and_eq_true] at h
      have hskip : ∀ (key : String), posNames.contains key = true →
          ∀ (o : Option Int) (rest : List (String × Json)),
          dictFieldsToAst cs (optPos key o ++ rest) = dictFieldsToAst cs rest := by
        intro key hkey o rest
        apply dictFieldsToAst_skip
        intro p hp
        rw [optPos_key hp, hkey]
        simp
      rw [ast_to_dict, stripPos, dict_to_ast]
      simp only [List.lookup, beq_self_eq_true]
      rw [h.1]
      simp only [if_true]
      rw [dictFieldsToAst, startsUnderscore_type]
      simp only [Bool.true_or, if_true]
      simp only [List.append_assoc]
      rw [hskip "lineno" (by decide), hskip "col_offset" (by decide),
        hskip "end_lineno" (by decide), hskip "end_col_offset" (by decide)]
      rw [dictFieldsToAst_astFieldsToDict cs fs ih h.2]

/-! ### Concrete sample data

A small oracle instance and the native tree CPython 3 produces for the
source `"x = 1 + 2"`, used to instantiate the theorems at concrete inputs. -/

def sampleClasses : List String :=
  ["Module", "Assign", "Name", "Store", "Load", "BinOp", "Add", "Constant", "Expr",
   "FunctionDef"]

def sampleTree : PyVal :=
  PyVal.node "Module" Option.none Option.none Option.none Option.none
    [("body", PyVal.list [
        PyVal.node "Assign" (Option.some 1) (Option.some 0) (Option.some 1) (Option.some 9)
          [("targets", PyVal.list [
              PyVal.node "Name" (Option.some 1) (Option.some 0) (Option.some 1) (Option.some 1)
                [("id", PyVal.str "x"),
                 ("ctx", PyVal.node "Store" Option.none Option.none Option.none Option.none [])]]),
           ("value", PyVal.node "BinOp" (Option.some 1) (Option.some 4) (Option.some 1) (Option.some 9)
              [("left", PyVal.node "Constant" (Option.some 1) (Option.some 4) (Option.some 1) (Option.some 5)
                  [("value", PyVal.int 1), ("kind", PyVal.none)]),
               ("op", PyVal.node "Add" Option.none Option.none Option.none Option.none []),
               ("right", PyVal.node "Constant" (Option.some 1) (Option.some 8) (Option.some 1) (Option.some 9)
                  [("value", PyVal.int 2), ("kind", PyVal.none)])]),
           ("type_comment", PyVal.none)]]),
     ("type_ignores", PyVal.list [])]

/-- The native tree CPython 3 produces for the source `"x = ..."`: an
assignment whose value is the `Ellipsis` constant — a value `json.dumps`
cannot serialize. -/
def ellipsisTree : PyVal :=
  PyVal.node "Module" Option.none Option.none Option.none Option.none
    [("body", PyVal.list [
        PyVal.node "Assign" (Option.some 1) (Option.some 0) (Option.some 1) (Option.some 7)
          [("targets", PyVal.list [
              PyVal.node "Name" (Option.some 1) (Option.some 0) (Option.some 1) (Option.some 1)
                [("id", PyVal.str "x"),
                 ("ctx", PyVal.node "Store" Option.none Option.none Option.none Option.none [])]]),
           ("value", PyVal.node "Constant" (Option.some 1) (Option.some 4) (Option.some 1) (Option.some 7)
              [("value", PyVal.ellipsisVal), ("kind", PyVal.none)]),
           ("type_comment", PyVal.none)]]),
     ("type_ignores", PyVal.list [])]

def sampleParse : String → ParseOutcome := fun src =>
  if src = "x = 1 + 2" then ParseOutcome.parsed sampleTree
  else if src = "x = ..." then ParseOutcome.parsed ellipsisTree
  else if src = "def f(:" then
    ParseOutcome.synErr "invalid syntax" (Option.some 1) (Option.some 8) (Option.some "def f(:")
  else ParseOutcome.otherErr "ValueError" "source null bytes"

def sampleUnparse : PyVal → Except PyError String := fun v =>
  match v with
  | PyVal.node _ _ _ _ _ _ => Except.ok "x = 1 + 2"
  | _ => Except.error ⟨"AttributeError", "object has no attribute _fields"⟩

def sampleOracle : Oracle := ⟨sampleClasses, sampleParse, sampleUnparse⟩

/-- Witness for C1 at the tree of `"x = 1 + 2"`. -/
theorem dict_to_ast_ast_to_dict_roundtrip_witness :
    wfTree sampleClasses sampleTree = true ∧
    dict_to_ast sampleClasses (ast_to_dict sampleTree) = Except.ok (stripPos sampleTree) :=
  ⟨by simp [wfTree, wfFields, wfList, sampleClasses, sampleTree, posNames, startsUnderscore],
   dict_to_ast_ast_to_dict_roundtrip sampleClasses sampleTree
     (by simp [wfTree, wfFields, wfList, sampleClasses, sampleTree, posNames, startsUnderscore])⟩

/-! ### The serialized envelope occupies a single line -/

theorem digitCh_ne_newline (d : Nat) : digitCh d ≠ '\n' := by
  unfold digitCh
  split_ifs <;> decide

theorem hexCh_ne_newline (d : Nat) : hexCh d ≠ '\n' := by
  unfold hexCh
  split_ifs <;> first | decide | exact digitCh_ne_newline d

theorem natDigits_ne_newline (n : Nat) : ∀ c ∈ natDigits n, c ≠ '\n' := by
  induction n using Nat.strong_induction_on with
  | _ n ih =>
      rw [natDigits]
      split_ifs with hlt
      · intro c hc
        simp only [List.mem_singleton] at hc
        rw [hc]
        exact digitCh_ne_newline n
      · intro c hc
        rw [List.mem_append] at hc
        rcases hc with hc | hc
        · exact ih (n / 10) (Nat.div_lt_self (by omega) (by omega)) c hc
        · simp only [List.mem_singleton] at hc
          rw [hc]
          exact digitCh_ne_newline (n % 10)

theorem newlineFree_append (a b : String) :
    newlineFree (a ++ b) = (newlineFree a && newlineFree b) := by
  simp [newlineFree, String.data_append, List.all_append]

theorem newlineFree_mk (l : List Char) :
    newlineFree (String.mk l) = l.all (fun c => !(c == '\n')) := rfl

theorem intRepr_newlineFree (n : Int) : newlineFree (intRepr n) = true := by
  unfold intRepr
  split_ifs
  · rw [newlineFree_append]
    simp only [Bool.and_eq_true]
    refine ⟨by decide, ?_⟩
    rw [newlineFree_mk]
    simp only [List.all_eq_true, Bool.not_eq_true', beq_eq_false_iff_ne]
    exact natDigits_ne_newline n.natAbs
  · rw [newlineFree_mk]
    simp only [List.all_eq_true, Bool.not_eq_true', beq_eq_false_iff_ne]
    exact natDigits_ne_newline n.toNat

theorem escCh_newlineFree (c : Char) : newlineFree (escCh c) = true := by
  unfold escCh
  split_ifs with h1 h2 h3 h4 h5 h6
  · decide
  · decide
  · decide
  · decide
  · decide
  · rw [newlineFree_mk]
    simp only [List.all_eq_true, Bool.not_eq_true', beq_eq_false_iff_ne]
    intro x hx
    simp only [List.mem_cons, List.not_mem_nil, or_false] at hx
    rcases hx with h | h | h | h | h | h <;> rw [h]
    · decide
    · decide
    · decide
    · decide
    · exact hexCh_ne_newline _
    · exact hexCh_ne_newline _
  · rw [newlineFree_mk]
    simp only [List.all_cons, List.all_nil, Bool.and_true]
    simp only [Bool.not_eq_true', beq_eq_false_iff_ne]
    exact h3

theorem strEsc_newlineFree (l : List Char) : newlineFree (strEsc l) = true := by
  induction l with
  | nil => decide
  | cons c cs ih =>
      rw [strEsc, newlineFree_append, escCh_newlineFree, ih]
      decide

theorem serStr_newlineFree (s : String) : newlineFree (serStr s) = true := by
  unfold serStr
  rw [newlineFree_append, newlineFree_append]
  rw [strEsc_newlineFree]
  decide

theorem serElems_newlineFree (xs : List Json)
    (ih : ∀ x ∈ xs, newlineFree (serJson x) = true) :
    newlineFree (serElems xs) = true := by
  induction xs with
  | nil => decide
  | cons x xs ihl =>
      cases xs with
      | nil =>
          rw [serElems]
          exact ih x (by simp)
      | cons y rest =>
          rw [serElems, newlineFree_append, newlineFree_append]
          rw [ih x (by simp), ihl (fun z hz => ih z (by simp [hz]))]
          decide
  
theorem serEntries_newlineFree (kvs : List (String × Json))
    (ih : ∀ p ∈ kvs, newlineFree (serJson p.2) = true) :
    newlineFree (serEntries kvs) = true := by
  induction kvs with
  | nil => decide
  | cons p kvs ihl =>
      obtain ⟨k, v⟩ := p
      cases kvs with
      | nil =>
          rw [serEntries, newlineFree_append, newlineFree_append]
          rw [serStr_newlineFree, ih (k, v) (by simp)]
          decide
      | cons q rest =>
          rw [serEntries]
          rw [newlineFree_append, newlineFree_append, newlineFree_append, newlineFree_append]
          rw [serStr_newlineFree, ih (k, v) (by simp), ihl (fun z hz => ih z (by simp [hz]))]
          decide

theorem serJson_newlineFree (j : Json) : newlineFree (serJson j) = true := by
  induction j using jsonInduction with
  | hnull => decide
  | hbool b => cases b <;> decide
  | hint n => rw [serJson]; exact intRepr_newlineFree n
  | hstr s => rw [serJson]; exact serStr_newlineFree s
  | harr xs ih =>
      rw [serJson, newlineFree_append, newlineFree_append]
      rw [serElems_newlineFree xs ih]
      decide
  | hobj kvs ih =>
      rw [serJson, newlineFree_append, newlineFree_append]
      rw [serEntries_newlineFree kvs ih]
      decide
  | hbytes bs => rw [serJson]; decide
  | hcomplex => rw [serJson]; decide
  | hellipsis => rw [serJson]; decide

theorem newlineCount_append (a b : String) :
    newlineCount (a ++ b) = newlineCount a + newlineCount b := by
  simp [newlineCount, String.data_append, List.filter_append]

theorem newlineCount_eq_zero (s : String) (h : newlineFree s = true) :
    newlineCount s = 0 := by
  unfold newlineCount
  rw [List.length_eq_zero, List.filter_eq_nil_iff]
  unfold newlineFree at h
  rw [List.all_eq_true] at h
  intro c hc
  have := h c hc
  simp only [Bool.not_eq_true'] at this
  simp [this]

/-- `parse_source` itself is total — every oracle outcome becomes a success
or failure envelope — and whenever `main`'s serialization succeeds, the
process output is that envelope as a single JSON line.  (What `main` does
when serialization fails is the subject of the C2 theorem below.) -/
theorem parserMainOutput_ok_single_line (O : Oracle) (source : String) :
    isEnvelope (parse_source O source) = true ∧
    (∀ s, parserMainOutput O source = Except.ok s →
      s = serJson (parse_source O source) ++ "\n" ∧ newlineCount s = 1) := by
  constructor
  · unfold parse_source
    cases O.parse source with
    | parsed tree => simp [isEnvelope, List.lookup]
    | synErr m l o tx => simp [isEnvelope, List.lookup]
    | otherErr t m => simp [isEnvelope, List.lookup]
  · intro s hs
    unfold parserMainOutput dumps at hs
    cases hfu : firstUnserializable (parse_source O source) with
    | some tn =>
        simp only [hfu] at hs
        exact absurd hs (by simp)
    | none =>
        simp only [hfu, Except.ok.injEq] at hs
        rw [← hs]
        refine ⟨rfl, ?_⟩
        rw [newlineCount_append, newlineCount_eq_zero _ (serJson_newlineFree _)]
        decide

/-- C2, code bug.  parser.py does not always emit a JSON line: for the
syntactically valid source `"x = ..."`, the oracle parses successfully and
`parse_source` returns a success envelope, but the envelope contains the
`Ellipsis` constant passed through verbatim by `ast_to_dict`, and
`json.dumps` in `main` — which runs outside `parse_source`'s try/except —
raises an uncaught `TypeError`.  The process dies with a traceback and emits
zero JSON lines, contradicting both "catches every failure" and "exactly one
JSON line".  (`x = b"hi"` and `x = 1j` fail the same way.) -/
theorem parserMain_crash_on_ellipsis :
    isEnvelope (parse_source sampleOracle "x = ...") = true ∧
    parserMainOutput sampleOracle "x = ..." =
      Except.error ⟨"TypeError", "Object of type ellipsis is not JSON serializable"⟩ := by
  constructor
  · simp [parse_source, sampleOracle, sampleParse, isEnvelope, List.lookup]
  · simp [parserMainOutput, dumps, parse_source, sampleOracle, sampleParse, ellipsisTree,
      ast_to_dict, astFieldsToDict, astListToDict, optPos,
      firstUnserializable, firstUnserializableList, firstUnserializableEntries]

/-- The decoder `main`'s gate: the document is a dict containing `_type`. -/
def hasTypeKey : Json → Bool
  | Json.obj kvs => (kvs.lookup "_type").isSome
  | _ => false

/-- C3.  Malformed-document rejection: any document that is not a dict with a
`_type` key — the empty dict, arrays, bare strings, every scalar — makes the
decoder emit exactly the `Invalid AST format` envelope, before any
reconstruction is attempted. -/
theorem unparserMain_rejects_malformed (O : Oracle) (data : Json)
    (h : hasTypeKey data = false) :
    unparserMain O data = invalidFormatEnvelope ∧
    invalidFormatEnvelope =
      Json.obj [("ok", Json.bool false),
        ("error", Json.obj [("type", Json.str "ValueError"),
          ("msg", Json.str "Invalid AST format")])] := by
  refine ⟨?_, rfl⟩
  cases data with
  | obj kvs =>
      rw [unparserMain]
      cases hl : kvs.lookup "_type" with
      | none => rfl
      | some v => simp [hasTypeKey, hl] at h
  | null => simp [unparserMain]
  | bool b => simp [unparserMain]
  | int n => simp [unparserMain]
  | str s => simp [unparserMain]
  | arr xs => simp [unparserMain]
  | bytes bs => simp [unparserMain]
  | complex => simp [unparserMain]
  | ellipsisVal => simp [unparserMain]

/-- Witness for C3 at the three documents the spec lists. -/
theorem unparserMain_rejects_malformed_witness :
    hasTypeKey (Json.obj []) = false ∧
    hasTypeKey (Json.arr []) = false ∧
    hasTypeKey (Json.str "not a document") = false ∧
    unparserMain sampleOracle (Json.obj []) = invalidFormatEnvelope ∧
    unparserMain sampleOracle (Json.arr []) = invalidFormatEnvelope ∧
    unparserMain sampleOracle (Json.str "not a document") = invalidFormatEnvelope :=
  ⟨by simp [hasTypeKey, List.lookup], by simp [hasTypeKey], by simp [hasTypeKey],
   (unparserMain_rejects_malformed sampleOracle (Json.obj []) (by simp [hasTypeKey, List.lookup])).1,
   (unparserMain_rejects_malformed sampleOracle (Json.arr []) (by simp [hasTypeKey])).1,
   (unparserMain_rejects_malformed sampleOracle (Json.str "not a document") (by simp [hasTypeKey])).1⟩

/-- C4.  Unknown-construct rejection: a document whose `_type` is a string
the oracle does not resolve yields a failure envelope of type `ValueError`
whose message ends with (and hence names) the unknown kind — no crash. -/
theorem unparserMain_unknown_type (O : Oracle) (kvs : List (String × Json)) (t : String)
    (h1 : kvs.lookup "_type" = Option.some (Json.str t))
    (h2 : O.astClasses.contains t = false) :
    unparserMain O (Json.obj kvs) =
      errorEnvelope "ValueError" ("Failed to unparse AST: Unknown AST node type: " ++ t) ∧
    ∃ p, "Failed to unparse AST: Unknown AST node type: " ++ t = p ++ t := by
  constructor
  · have h2' : t ∉ O.astClasses := by simpa using h2
    rw [unparserMain, h1]
    unfold unparse_ast
    rw [dict_to_ast, h1]
    simp [h2', errorEnvelope]
    rw [← String.append_assoc]
    rfl
  · exact ⟨"Failed to unparse AST: Unknown AST node type: ", rfl⟩

/-- Witness for C4 at `{"_type": "NotARealConstruct"}`. -/
theorem unparserMain_unknown_type_witness :
    List.lookup "_type" [("_type", Json.str "NotARealConstruct")] =
      Option.some (Json.str "NotARealConstruct") ∧
    sampleOracle.astClasses.contains "NotARealConstruct" = false ∧
    unparserMain sampleOracle (Json.obj [("_type", Json.str "NotARealConstruct")]) =
      errorEnvelope "ValueError"
        ("Failed to unparse AST: Unknown AST node type: " ++ "NotARealConstruct") :=
  ⟨by simp [List.lookup], by simp [sampleOracle, sampleClasses],
   (unparserMain_unknown_type sampleOracle [("_type", Json.str "NotARealConstruct")]
      "NotARealConstruct" (by simp [List.lookup])
      (by simp [sampleOracle, sampleClasses])).1⟩

/-- C6.  Syntax-error envelope: when the oracle's parse reports a syntax
error, the encoder returns `ok:false` with error type `"SyntaxError"` and
`msg`/`lineno`/`offset`/`text` copied from the error object, `null` standing
for attributes the oracle left unset. -/
theorem parse_source_synerr_envelope (O : Oracle) (source msg : String)
    (lineno offset : Option Int) (text : Option String)
    (h : O.parse source = ParseOutcome.synErr msg lineno offset text) :
    parse_source O source =
      Json.obj [("ok", Json.bool false),
        ("error", Json.obj [("type", Json.str "SyntaxError"),
          ("msg", Json.str msg),
          ("lineno", optIntJson lineno),
          ("offset", optIntJson offset),
          ("text", optStrJson text)])] := by
  unfold parse_source
  rw [h]

/-- Witness for C6 at the spec's `"def f(:"` scenario: error type
`SyntaxError`, a non-empty message, and `lineno` 1. -/
theorem parse_source_synerr_envelope_witness :
    sampleOracle.parse "def f(:" =
      ParseOutcome.synErr "invalid syntax" (Option.some 1) (Option.some 8)
        (Option.some "def f(:") ∧
    parse_source sampleOracle "def f(:" =
      Json.obj [("ok", Json.bool false),
        ("error", Json.obj [("type", Json.str "SyntaxError"),
          ("msg", Json.str "invalid syntax"),
          ("lineno", Json.int 1),
          ("offset", Json.int 8),
          ("text", Json.str "def f(:")])] ∧
    ("invalid syntax" : String) ≠ "" :=
  ⟨by simp [sampleOracle, sampleParse],
   by
    rw [parse_source_synerr_envelope sampleOracle "def f(:" "invalid syntax"
      (Option.some 1) (Option.some 8) (Option.some "def f(:")
      (by simp [sampleOracle, sampleParse])]
    simp [optIntJson, optStrJson],
   by simp⟩

/-- C5, counterexample.  `decode({"_type": 5})` raises a `TypeError` inside
reconstruction (`getattr` with a non-string attribute name), yet the emitted
envelope reports type `"ValueError"`, not `"TypeError"`: the envelope's error
type does not equal the classification of the error that was raised. -/
theorem unparser_error_classification_cex :
    dict_to_ast sampleOracle.astClasses (Json.obj [("_type", Json.int 5)]) =
      Except.error ⟨"TypeError", "attribute name must be string"⟩ ∧
    unparserMain sampleOracle (Json.obj [("_type", Json.int 5)]) =
      errorEnvelope "ValueError" "Failed to unparse AST: attribute name must be string" ∧
    ("ValueError" : String) ≠ "TypeError" := by
  refine ⟨?_, ?_, by simp⟩
  · simp [dict_to_ast, List.lookup]
  · simp [unparserMain, unparse_ast, dict_to_ast, List.lookup, errorEnvelope]

/-- C5, amended.  `unparse_ast` re-raises every internal failure — from
reconstruction or from the oracle's unparse — as a `ValueError` whose message
is `"Failed to unparse AST: "` followed by the original error's description,
so the decoder's failure envelope always carries type `"ValueError"` with the
original description only embedded in the message. -/
theorem unparse_ast_error_wrapped (O : Oracle) (kvs : List (String × Json)) (e : PyError)
    (h1 : (kvs.lookup "_type").isSome = true)
    (h2 : unparse_ast O (Json.obj kvs) = Except.error e) :
    e.type_ = "ValueError" ∧
    (∃ e0 : PyError,
      e.msg = "Failed to unparse AST: " ++ e0.msg ∧
      (dict_to_ast O.astClasses (Json.obj kvs) = Except.error e0 ∨
       ∃ tree, dict_to_ast O.astClasses (Json.obj kvs) = Except.ok tree ∧
         O.unparse tree = Except.error e0)) ∧
    unparserMain O (Json.obj kvs) = errorEnvelope "ValueError" e.msg := by
  obtain ⟨v, hv⟩ := Option.isSome_iff_exists.mp h1
  have hcore : e.type_ = "ValueError" ∧
      ∃ e0 : PyError, e.msg = "Failed to unparse AST: " ++ e0.msg ∧
        (dict_to_ast O.astClasses (Json.obj kvs) = Except.error e0 ∨
         ∃ tree, dict_to_ast O.astClasses (Json.obj kvs) = Except.ok tree ∧
           O.unparse tree = Except.error e0) := by
    unfold unparse_ast at h2
    cases hd : dict_to_ast O.astClasses (Json.obj kvs) with
    | ok tree =>
        rw [hd] at h2
        cases hu : O.unparse tree with
        | ok s =>
            simp only [hu] at h2
            exact absurd h2 (by simp)
        | error e0 =>
            simp only [hu, Except.error.injEq] at h2
            rw [← h2]
            exact ⟨rfl, e0, rfl, Or.inr ⟨tree, rfl, hu⟩⟩
    | error e0 =>
        rw [hd] at h2
        simp only [Except.error.injEq] at h2
        rw [← h2]
        exact ⟨rfl, e0, rfl, Or.inl rfl⟩
  refine ⟨hcore.1, hcore.2, ?_⟩
  rw [unparserMain, hv, h2]
  simp [hcore.1]

/-- Witness for the amended C5 at `{"_type": 5}`. -/
theorem unparse_ast_error_wrapped_witness :
    (List.lookup "_type" [("_type", Json.int 5)]).isSome = true ∧
    unparse_ast sampleOracle (Json.obj [("_type", Json.int 5)]) =
      Except.error ⟨"ValueError", "Failed to unparse AST: attribute name must be string"⟩ ∧
    unparserMain sampleOracle (Json.obj [("_type", Json.int 5)]) =
      errorEnvelope "ValueError" "Failed to unparse AST: attribute name must be string" :=
  ⟨by simp [List.lookup],
   by simp [unparse_ast, dict_to_ast, List.lookup],
   (unparse_ast_error_wrapped sampleOracle [("_type", Json.int 5)]
      ⟨"ValueError", "Failed to unparse AST: attribute name must be string"⟩
      (by simp [List.lookup])
      (by simp [unparse_ast, dict_to_ast, List.lookup])).2.2⟩

theorem lookup_cons {β : Type} (k a : String) (x : β) (rest : List (String × β)) :
    ((a, x) :: rest).lookup k =
      if (k == a) = true then Option.some x else rest.lookup k := by
  rw [List.lookup]
  cases k == a <;> simp

theorem astFieldsToDict_lookup_none (fs : List (String × PyVal)) (k : String)
    (h : ∀ p ∈ fs, (k == p.1) = false) :
    (astFieldsToDict fs).lookup k = Option.none := by
  induction fs with
  | nil => simp [astFieldsToDict, List.lookup]
  | cons p fs ih =>
      obtain ⟨k1, v⟩ := p
      rw [astFieldsToDict, lookup_cons]
      rw [h (k1, v) (by simp)]
      simp only [Bool.false_eq_true, if_false]
      exact ih (fun q hq => h q (by simp [hq]))

theorem optPos_lookup_self (key : String) (o : Option Int) :
    (optPos key o).lookup key = o.map Json.int := by
  cases o <;> simp [optPos, List.lookup]

theorem optPos_lookup_other (key k : String) (o : Option Int) (h : (k == key) = false) :
    (optPos key o).lookup k = Option.none := by
  cases o <;> simp [optPos, lookup_cons, h, List.lookup]

/-- C7.  Position metadata is optional and preserved: in the encoding of a
node, each of the four position keys maps to the node's attribute value
verbatim when the attribute is present, and does not occur at all (the lookup
is `none`, never `null` or `0`) when the attribute is absent.  The hypothesis
— no structural field is named like a position attribute — holds for every
real `ast` node class. -/
theorem ast_to_dict_position_metadata (t : String) (l c el ec : Option Int)
    (fs : List (String × PyVal))
    (h : ∀ p ∈ fs, posNames.contains p.1 = false) :
    ∃ entries, ast_to_dict (PyVal.node t l c el ec fs) = Json.obj entries ∧
      entries.lookup "lineno" = Option.map Json.int l ∧
      entries.lookup "col_offset" = Option.map Json.int c ∧
      entries.lookup "end_lineno" = Option.map Json.int el ∧
      entries.lookup "end_col_offset" = Option.map Json.int ec := by
  have hfs : ∀ key2, key2 ∈ posNames →
      (astFieldsToDict fs).lookup key2 = Option.none := by
    intro key2 hk2
    apply astFieldsToDict_lookup_none
    intro p hp
    have hp1 : p.1 ∉ posNames := by simpa using h p hp
    rw [beq_eq_false_iff_ne]
    intro hEq
    exact hp1 (hEq ▸ hk2)
  refine ⟨_, by rw [ast_to_dict], ?_, ?_, ?_, ?_⟩
  · simp only [List.append_assoc]
    simp [lookup_cons, lookup_append, optPos_lookup_self, optPos_lookup_other,
      hfs "lineno" (by simp [posNames])]
    cases l <;> simp
  · simp only [List.append_assoc]
    simp [lookup_cons, lookup_append, optPos_lookup_self, optPos_lookup_other,
      hfs "col_offset" (by simp [posNames])]
    cases c <;> simp
  · simp only [List.append_assoc]
    simp [lookup_cons, lookup_append, optPos_lookup_self, optPos_lookup_other,
      hfs "end_lineno" (by simp [posNames])]
    cases el <;> simp
  · simp only [List.append_assoc]
    simp [lookup_cons, lookup_append, optPos_lookup_self, optPos_lookup_other,
      hfs "end_col_offset" (by simp [posNames])]
    cases ec <;> simp

/-- Witness for C7 at a node carrying `lineno`/`col_offset` but no end
positions: the present attributes appear verbatim, the absent ones do not
appear at all. -/
theorem ast_to_dict_position_metadata_witness :
    (∀ p ∈ [("id", PyVal.str "x")], posNames.contains p.1 = false) ∧
    (∃ entries,
      ast_to_dict (PyVal.node "Name" (Option.some 1) (Option.some 0) Option.none Option.none
        [("id", PyVal.str "x")]) = Json.obj entries ∧
      entries.lookup "lineno" = Option.map Json.int (Option.some 1) ∧
      entries.lookup "col_offset" = Option.map Json.int (Option.some 0) ∧
      entries.lookup "end_lineno" = Option.map Json.int Option.none ∧
      entries.lookup "end_col_offset" = Option.map Json.int Option.none) :=
  ⟨by simp [posNames],
   ast_to_dict_position_metadata "Name" (Option.some 1) (Option.some 0)
     Option.none Option.none [("id", PyVal.str "x")] (by simp [posNames])⟩

/-- C8.  Structural field encoding: a node encodes to a record tagged by the
class name in `_type` (followed by position entries and the structural
fields); the field loop preserves field names, order and arity, encoding each
value recursively; lists encode elementwise in order and length-preserving;
`None`, booleans, numbers and strings pass through unchanged. -/
theorem ast_to_dict_structural_encoding :
    (∀ t l c el ec fs,
      ast_to_dict (PyVal.node t l c el ec fs) =
        Json.obj (("_type", Json.str t) ::
          (optPos "lineno" l ++ optPos "col_offset" c ++
           optPos "end_lineno" el ++ optPos "end_col_offset" ec ++
           astFieldsToDict fs))) ∧
    (∀ fs : List (String × PyVal),
      astFieldsToDict fs = fs.map (fun p => (p.1, ast_to_dict p.2))) ∧
    (∀ xs : List PyVal, ast_to_dict (PyVal.list xs) = Json.arr (astListToDict xs)) ∧
    (∀ xs : List PyVal, astListToDict xs = xs.map ast_to_dict) ∧
    (∀ xs : List PyVal, (astListToDict xs).length = xs.length) ∧
    ast_to_dict PyVal.none = Json.null ∧
    (∀ b, ast_to_dict (PyVal.bool b) = Json.bool b) ∧
    (∀ n, ast_to_dict (PyVal.int n) = Json.int n) ∧
    (∀ s, ast_to_dict (PyVal.str s) = Json.str s) := by
  have hfields : ∀ fs : List (String × PyVal),
      astFieldsToDict fs = fs.map (fun p => (p.1, ast_to_dict p.2)) := by
    intro fs
    induction fs with
    | nil => simp [astFieldsToDict]
    | cons p fs ih =>
        obtain ⟨k, v⟩ := p
        rw [astFieldsToDict]
        simp [ih]
  have hlist : ∀ xs : List PyVal, astListToDict xs = xs.map ast_to_dict := by
    intro xs
    induction xs with
    | nil => simp [astListToDict]
    | cons x xs ih =>
        rw [astListToDict]
        simp [ih]
  exact ⟨fun t l c el ec fs => by rw [ast_to_dict], hfields,
    fun xs => by rw [ast_to_dict], hlist,
    fun xs => by rw [hlist]; simp,
    by rw [ast_to_dict], fun b => by rw [ast_to_dict],
    fun n => by rw [ast_to_dict], fun s => by rw [ast_to_dict]⟩

/-- C9, counterexample.  The decoder skips every key starting with an
underscore, not just the `_type` discriminator: in
`{"_type": "Name", "_custom": 1, "id": "x"}` the key `_custom` is neither
the discriminator nor one of the four position fields, yet it never reaches
the constructor — only `id` does.  So "every other field of the record is
recursively decoded and passed to the constructor" is false as stated. -/
theorem dict_to_ast_drops_underscore_cex :
    dict_to_ast sampleClasses
      (Json.obj [("_type", Json.str "Name"), ("_custom", Json.int 1), ("id", Json.str "x")]) =
      Except.ok (PyVal.node "Name" Option.none Option.none Option.none Option.none
        [("id", PyVal.str "x")]) ∧
    ("_custom" : String) ≠ "_type" ∧
    posNames.contains "_custom" = false ∧
    (∀ p ∈ [("id", PyVal.str "x")], p.1 ≠ "_custom") := by
  refine ⟨?_, by simp, by simp [posNames], by simp⟩
  simp [dict_to_ast, dictFieldsToAst, sampleClasses, startsUnderscore, posNames]

/-- C9, amended.  The decoder's field loop never feeds the `_type`
discriminator, any other key that starts with an underscore, or the four
position keys into node construction: the prepared field list corresponds
one-to-one (same names, same order, recursively decoded values) with exactly
the record entries whose key neither starts with `_` nor is a position name,
and the node constructor receives exactly that list. -/
theorem dictFieldsToAst_excludes_metadata (cs : List String) (kvs : List (String × Json))
    (res : List (String × PyVal))
    (h : dictFieldsToAst cs kvs = Except.ok res) :
    List.Forall₂ (fun q p => q.1 = p.1 ∧ dict_to_ast cs q.2 = Except.ok p.2)
      (kvs.filter (fun q => !(startsUnderscore q.1 || posNames.contains q.1))) res ∧
    (∀ p ∈ res, startsUnderscore p.1 = false ∧ posNames.contains p.1 = false) ∧
    (∀ t, kvs.lookup "_type" = Option.some (Json.str t) → cs.contains t = true →
      dict_to_ast cs (Json.obj kvs) =
        Except.ok (PyVal.node t Option.none Option.none Option.none Option.none res)) := by
  have main : ∀ (l : List (String × Json)) (r : List (String × PyVal)),
      dictFieldsToAst cs l = Except.ok r →
      List.Forall₂ (fun q p => q.1 = p.1 ∧ dict_to_ast cs q.2 = Except.ok p.2)
        (l.filter (fun q => !(startsUnderscore q.1 || posNames.contains q.1))) r ∧
      (∀ p ∈ r, startsUnderscore p.1 = false ∧ posNames.contains p.1 = false) := by
    intro l
    induction l with
    | nil =>
        intro r hr
        rw [dictFieldsToAst] at hr
        simp only [Except.ok.injEq] at hr
        rw [← hr]
        simp
    | cons q l ih =>
        intro r hr
        obtain ⟨k, v⟩ := q
        rw [dictFieldsToAst] at hr
        cases hcond : (startsUnderscore k || posNames.contains k) with
        | true =>
            rw [hcond] at hr
            simp only [if_true] at hr
            have hrest := ih r hr
            refine ⟨?_, hrest.2⟩
            rw [List.filter_cons]
            simp only [hcond, Bool.not_true, Bool.false_eq_true, if_false]
            exact hrest.1
        | false =>
            rw [hcond] at hr
            simp only [Bool.false_eq_true, if_false] at hr
            cases hd : dict_to_ast cs v with
            | error e =>
                simp only [hd] at hr
                exact absurd hr (by simp)
            | ok v2 =>
                simp only [hd] at hr
                cases hl : dictFieldsToAst cs l with
                | error e =>
                    simp only [hl] at hr
                    exact absurd hr (by simp)
                | ok fields =>
                    simp only [hl, Except.ok.injEq] at hr
                    rw [← hr]
                    have hrest := ih fields hl
                    have hcond2 := Bool.or_eq_false_iff.mp hcond
                    constructor
                    · rw [List.filter_cons]
                      simp only [hcond, Bool.not_false, if_true]
                      exact List.Forall₂.cons ⟨rfl, hd⟩ hrest.1
                    · intro p hp
                      rcases List.mem_cons.mp hp with hp | hp
                      · rw [hp]
                        exact hcond2
                      · exact hrest.2 p hp
  have hm := main kvs res h
  refine ⟨hm.1, hm.2, ?_⟩
  intro t ht hcont
  rw [dict_to_ast, ht]
  simp [h]
  simpa using hcont

/-- Witness for C9 at a record with `_type`, a position entry, and one
structural field: only `id` reaches the constructor. -/
theorem dictFieldsToAst_excludes_metadata_witness :
    dictFieldsToAst sampleClasses
      [("_type", Json.str "Name"), ("lineno", Json.int 1), ("id", Json.str "x")] =
      Except.ok [("id", PyVal.str "x")] ∧
    List.Forall₂ (fun q p => q.1 = p.1 ∧ dict_to_ast sampleClasses q.2 = Except.ok p.2)
      (List.filter (fun q => !(startsUnderscore q.1 || posNames.contains q.1))
        [("_type", Json.str "Name"), ("lineno", Json.int 1), ("id", Json.str "x")])
      [("id", PyVal.str "x")] ∧
    dict_to_ast sampleClasses
      (Json.obj [("_type", Json.str "Name"), ("lineno", Json.int 1), ("id", Json.str "x")]) =
      Except.ok (PyVal.node "Name" Option.none Option.none Option.none Option.none
        [("id", PyVal.str "x")]) := by
  have hyp : dictFieldsToAst sampleClasses
      [("_type", Json.str "Name"), ("lineno", Json.int 1), ("id", Json.str "x")] =
      Except.ok [("id", PyVal.str "x")] := by
    simp [dictFieldsToAst, dict_to_ast, startsUnderscore, posNames]
  have hthm := dictFieldsToAst_excludes_metadata sampleClasses
    [("_type", Json.str "Name"), ("lineno", Json.int 1), ("id", Json.str "x")]
    [("id", PyVal.str "x")] hyp
  exact ⟨hyp, hthm.1,
    hthm.2.2 "Name" (by simp [List.lookup]) (by simp [sampleClasses])⟩

mutual
/-- Part of the proof that passed-through JSON data contains no AST node. -/
theorem nodeFreeList_jsonListToVal (xs : List Json)
    (ih : ∀ x ∈ xs, nodeFree (jsonToVal x) = true) :
    nodeFreeList (jsonListToVal xs) = true := by
  induction xs with
  | nil => rw [jsonListToVal, nodeFreeList]
  | cons x xs ihl =>
      rw [jsonListToVal, nodeFreeList]
      rw [ih x (by simp), ihl (fun y hy => ih y (by simp [hy]))]
      rfl

theorem nodeFreeFields_jsonEntriesToVal (kvs : List (String × Json))
    (ih : ∀ p ∈ kvs, nodeFree (jsonToVal p.2) = true) :
    nodeFreeFields (jsonEntriesToVal kvs) = true := by
  induction kvs with
  | nil => rw [jsonEntriesToVal, nodeFreeFields]
  | cons p kvs ihl =>
      obtain ⟨k, v⟩ := p
      rw [jsonEntriesToVal, nodeFreeFields]
      rw [ih (k, v) (by simp), ihl (fun q hq => ih q (by simp [hq]))]
      rfl
end

theorem nodeFree_jsonToVal (j : Json) : nodeFree (jsonToVal j) = true := by
  induction j using jsonInduction with
  | hnull => simp [jsonToVal, nodeFree]
  | hbool b => simp [jsonToVal, nodeFree]
  | hint n => simp [jsonToVal, nodeFree]
  | hstr s => simp [jsonToVal, nodeFree]
  | harr xs ih =>
      rw [jsonToVal, nodeFree]
      exact nodeFreeList_jsonListToVal xs ih
  | hobj kvs ih =>
      rw [jsonToVal, nodeFree]
      exact nodeFreeFields_jsonEntriesToVal kvs ih
  | hbytes bs => simp [jsonToVal, nodeFree]
  | hcomplex => simp [jsonToVal, nodeFree]
  | hellipsis => simp [jsonToVal, nodeFree]

/-- C10.  A record without `_type` is never rejected during recursion: the
decoder returns it unchanged as the plain mapping `json.loads` produced (with
nothing inside converted to a node), and inside the field loop such a record
is handed to the parent's constructor as-is. -/
theorem dict_to_ast_passthrough (cs : List String) (kvs : List (String × Json))
    (h : kvs.lookup "_type" = Option.none) :
    dict_to_ast cs (Json.obj kvs) = Except.ok (jsonToVal (Json.obj kvs)) ∧
    nodeFree (jsonToVal (Json.obj kvs)) = true ∧
    (∀ k, startsUnderscore k = false → posNames.contains k = false →
      dictFieldsToAst cs [(k, Json.obj kvs)] =
        Except.ok [(k, jsonToVal (Json.obj kvs))]) := by
  refine ⟨?_, nodeFree_jsonToVal _, ?_⟩
  · rw [dict_to_ast, h]
  · intro k hk1 hk2
    rw [dictFieldsToAst, hk1, hk2]
    simp only [Bool.or_self, Bool.false_eq_true, if_false]
    rw [dict_to_ast, h, dictFieldsToAst]

/-- Witness for C10 at the plain record `{"value": 7}` under the key
`"slice"`. -/
theorem dict_to_ast_passthrough_witness :
    List.lookup "_type" [("value", Json.int 7)] = Option.none ∧
    dict_to_ast sampleClasses (Json.obj [("value", Json.int 7)]) =
      Except.ok (jsonToVal (Json.obj [("value", Json.int 7)])) ∧
    jsonToVal (Json.obj [("value", Json.int 7)]) =
      PyVal.dict [("value", PyVal.int 7)] ∧
    dictFieldsToAst sampleClasses [("slice", Json.obj [("value", Json.int 7)])] =
      Except.ok [("slice", jsonToVal (Json.obj [("value", Json.int 7)]))] := by
  have h0 : List.lookup "_type" [("value", Json.int 7)] = Option.none := by
    simp [List.lookup]
  have hthm := dict_to_ast_passthrough sampleClasses [("value", Json.int 7)] h0
  exact ⟨h0, hthm.1,
    by simp [jsonToVal, jsonEntriesToVal],
    hthm.2.2 "slice" (by simp [startsUnderscore]) (by simp [posNames])⟩
